import Mathlib

/-!
Verification of the Saweria donation webhook relay.

The repository has two variants of the same Express server:
  * `src/server.js` — SQLite-backed ("sqlite" model below);
  * `src/unnamed/part_000` — in-memory queue + leaderboard ("mem" model below).

Both share the `/saweria` ingest field-mapping (`||` alias chains with
`parseInt`), the `/roblox-check` poll/confirm handler, and a periodic
cleanup sweep.  This file embeds the data model and the handlers as pure
Lean functions over explicit state, and proves the specified properties.
-/

namespace Saweria

/-- A JSON scalar value as it appears in a webhook payload field.
Objects and arrays are omitted: no claim distinguishes them, and every
field-extraction site only tests truthiness or applies `parseInt`. -/
inductive JVal where
  | str (s : String)
  | num (n : Int)
  | jnull
  | jbool (b : Bool)
deriving DecidableEq, Repr

/-- JavaScript truthiness of a payload value, as used by the `||` chains
in the ingest handler: empty string, `0`, `null` and `false` are falsy. -/
def truthy : JVal → Bool
  | .str s => s ≠ ""
  | .num n => n ≠ 0
  | .jnull => false
  | .jbool b => b

/-- Numeric value of a list of decimal digit characters. -/
def digitsToNat (cs : List Char) : Nat :=
  cs.foldl (fun a c => a * 10 + (c.toNat - 48)) 0

/-- Numeric value of a list of hexadecimal digit characters. -/
def hexDigitsToNat (cs : List Char) : Nat :=
  cs.foldl (fun a c =>
    a * 16 + (if c.isDigit then c.toNat - 48
              else if 'a' ≤ c ∧ c ≤ 'f' then c.toNat - 87
              else c.toNat - 55)) 0

/-- Is this character a hexadecimal digit? -/
def isHexDigit (c : Char) : Bool :=
  c.isDigit || ('a' ≤ c && c ≤ 'f') || ('A' ≤ c && c ≤ 'F')

/-- Parse the leading digit run of `cs` (hex after a `0x`/`0X` prefix,
decimal otherwise), negated when `neg`; `none` when no digit leads
(JavaScript `NaN`). -/
def parseIntCore (cs : List Char) (neg : Bool) : Option Int :=
  match cs with
  | '0' :: 'x' :: rest =>
      let ds := rest.takeWhile isHexDigit
      if ds.isEmpty then none
      else some (if neg then -(hexDigitsToNat ds : Int) else (hexDigitsToNat ds : Int))
  | '0' :: 'X' :: rest =>
      let ds := rest.takeWhile isHexDigit
      if ds.isEmpty then none
      else some (if neg then -(hexDigitsToNat ds : Int) else (hexDigitsToNat ds : Int))
  | _ =>
      let ds := cs.takeWhile Char.isDigit
      if ds.isEmpty then none
      else some (if neg then -(digitsToNat ds : Int) else (digitsToNat ds : Int))

/-- Is this a JavaScript whitespace character (the common ones)? -/
def isJsSpace (c : Char) : Bool :=
  c = ' ' || c = '\t' || c = '\n' || c = '\r'

/-- JavaScript `parseInt` on a string (radix argument absent): skip
leading whitespace, read an optional sign, then a leading digit run;
`none` models `NaN`. -/
def parseIntStr (s : String) : Option Int :=
  match s.data.dropWhile isJsSpace with
  | '-' :: rest => parseIntCore rest true
  | '+' :: rest => parseIntCore rest false
  | rest => parseIntCore rest false

/-- JavaScript `parseInt` on a payload value: a number is converted to its
decimal string and parsed back (identity on integers), a string is parsed,
`null`, `true` and `false` stringify to non-numeric text (`NaN`). -/
def parseIntJS : JVal → Option Int
  | .num n => some n
  | .str s => parseIntStr s
  | .jnull => none
  | .jbool _ => none

/-- The webhook request body, restricted to the fields the ingest handler
reads.  `none` models an absent key (`undefined`). -/
structure Payload where
  donatur_name : Option JVal := none
  donator_name : Option JVal := none
  supporter_name : Option JVal := none
  supporter : Option JVal := none
  name : Option JVal := none
  username : Option JVal := none
  amount_raw : Option JVal := none
  amount : Option JVal := none
  nominal : Option JVal := none
  donation : Option JVal := none
  message : Option JVal := none
  pesan : Option JVal := none
  note : Option JVal := none
  comment : Option JVal := none
deriving DecidableEq, Repr

/-- The `||` chain over optional payload fields: first present-and-truthy
value, `none` when every field is absent or falsy. -/
def firstTruthy : List (Option JVal) → Option JVal
  | [] => none
  | o :: rest =>
      match o with
      | some v => if truthy v then some v else firstTruthy rest
      | none => firstTruthy rest

/-- The `parseInt(a) || parseInt(b) || ... || 0` chain: the first field
whose `parseInt` is a nonzero number wins (`NaN` and `0` are falsy and
fall through), fallback `0`.  An absent field gives `parseInt(undefined)
= NaN`. -/
def firstAmount : List (Option JVal) → Int
  | [] => 0
  | o :: rest =>
      match o.bind parseIntJS with
      | some n => if n ≠ 0 then n else firstAmount rest
      | none => firstAmount rest

/-- The username alias fields in the order the handler tries them. -/
def usernameAliases (p : Payload) : List (Option JVal) :=
  [p.donatur_name, p.donator_name, p.supporter_name, p.supporter, p.name, p.username]

/-- The amount alias fields in the order the handler tries them. -/
def amountAliases (p : Payload) : List (Option JVal) :=
  [p.amount_raw, p.amount, p.nominal, p.donation]

/-- The message alias fields in the order the handler tries them. -/
def messageAliases (p : Payload) : List (Option JVal) :=
  [p.message, p.pesan, p.note, p.comment]

/-- The chain `data.donatur_name || data.donator_name || ... ||` with the
string "Anonymous" as final fallback. -/
def extractUsername (p : Payload) : JVal :=
  (firstTruthy (usernameAliases p)).getD (.str "Anonymous")

/-- `parseInt(data.amount_raw) || parseInt(data.amount) || parseInt(data.nominal)
|| parseInt(data.donation) || 0`. -/
def extractAmount (p : Payload) : Int :=
  firstAmount (amountAliases p)

/-- The chain `data.message || data.pesan || data.note || data.comment ||`
with the empty string as final fallback. -/
def extractMessage (p : Payload) : JVal :=
  (firstTruthy (messageAliases p)).getD (.str "")

/-- One queued donation record.  `id` stands for the opaque
time-plus-random string of `generateDonationId`; `timestamp` is the ISO
string; `received_at` the epoch-millisecond stamp.  The constant
`avatar_url: null` field of the in-memory variant is omitted. -/
structure Donation where
  id : Nat
  username : JVal
  display_name : JVal
  amount : Int
  message : JVal
  timestamp : String
  received_at : Nat
  delivered : Bool
deriving DecidableEq, Repr

/-- One leaderboard entry (`top_spenders` row / object value). -/
structure Spender where
  username : JVal
  display_name : JVal
  total_amount : Int
deriving DecidableEq, Repr

/-- The string a JavaScript object coerces a property key to; the
in-memory leaderboard `topSpenders[username]` is keyed by this. -/
def jvalKey : JVal → String
  | .str s => s
  | .num n => toString n
  | .jnull => "null"
  | .jbool b => if b then "true" else "false"

/-- Lookup in an association list keyed by the object-key string. -/
def spLookup (key : String) : List (String × Spender) → Option Spender
  | [] => none
  | kv :: rest => if kv.1 = key then some kv.2 else spLookup key rest

/-- State of the in-memory variant: the `donationQueue` array and the
`topSpenders` object (association list in insertion order). -/
structure MemState where
  donationQueue : List Donation
  topSpenders : List (String × Spender)
deriving DecidableEq, Repr

/-- `MAX_QUEUE_SIZE` of the in-memory variant. -/
def MAX_QUEUE_SIZE : Nat := 20

/-- `DONATION_LIFETIME` of the in-memory variant (2 minutes in ms). -/
def DONATION_LIFETIME : Int := 120000

/-- The donation record the ingest handler builds from a payload, with
the freshly generated id and the current timestamps. -/
def mkDonation (p : Payload) (newId : Nat) (ts : String) (now : Nat) : Donation :=
  let u := extractUsername p
  { id := newId
    username := u
    display_name := u
    amount := extractAmount p
    message := extractMessage p
    timestamp := ts
    received_at := now
    delivered := false }

/-- The in-memory top-spender upsert: if `topSpenders[username]` is
absent, create it with `total_amount: 0`; then add the amount.  An
existing entry keeps its `display_name`. -/
def upsertSpenderMem (ts : List (String × Spender)) (u : JVal) (amt : Int) :
    List (String × Spender) :=
  match spLookup (jvalKey u) ts with
  | some _ =>
      ts.map fun kv =>
        if kv.1 = jvalKey u then (kv.1, { kv.2 with total_amount := kv.2.total_amount + amt })
        else kv
  | none => ts ++ [(jvalKey u, { username := u, display_name := u, total_amount := 0 + amt })]

/-- Response of `POST /saweria` on success. -/
structure IngestResp where
  donation_id : Nat
  queue_size : Nat
deriving DecidableEq, Repr

/-- The in-memory `/saweria` handler: build the donation, push it, shift
the front off when the queue exceeds `MAX_QUEUE_SIZE`, upsert the
leaderboard, and report the undelivered count. -/
def memIngest (st : MemState) (p : Payload) (newId : Nat) (ts : String) (now : Nat) :
    MemState × IngestResp :=
  let d := mkDonation p newId ts now
  let q1 := st.donationQueue ++ [d]
  let q2 := if q1.length > MAX_QUEUE_SIZE then q1.drop 1 else q1
  let sp := upsertSpenderMem st.topSpenders (extractUsername p) (extractAmount p)
  ({ donationQueue := q2, topSpenders := sp },
   { donation_id := newId,
     queue_size := (q2.filter (fun x => !x.delivered)).length })

/-- `donationQueue.find(d => d.id === confirmId)` followed by the
in-place `delivered = true` write: mark the first matching record. -/
def markFirstDelivered : List Donation → Nat → List Donation
  | [], _ => []
  | d :: rest, cid =>
      if d.id = cid then { d with delivered := true } :: rest
      else d :: markFirstDelivered rest cid

/-- Stable insertion of a spender into a list sorted by descending
`total_amount`. -/
def insertByTotal (s : Spender) : List Spender → List Spender
  | [] => [s]
  | t :: rest => if t.total_amount < s.total_amount then s :: t :: rest
                 else t :: insertByTotal s rest

/-- `Object.values(topSpenders).sort((a, b) => b.total_amount - a.total_amount)`. -/
def sortSpenders (l : List Spender) : List Spender :=
  l.foldr insertByTotal []

/-- Response of `GET /roblox-check`. -/
structure PollResp where
  donation : Option Donation
  top_spenders : List Spender
  queue_size : Nat
deriving DecidableEq, Repr

/-- The in-memory `/roblox-check` handler: optionally confirm a delivery
(`confirmId = none` models an absent or empty `confirm` query value),
then return the first undelivered donation in queue order, the top 10
spenders, and the undelivered count. -/
def robloxCheck (st : MemState) (confirmId : Option Nat) : MemState × PollResp :=
  let q1 := match confirmId with
    | some cid => markFirstDelivered st.donationQueue cid
    | none => st.donationQueue
  let tops := (sortSpenders (st.topSpenders.map Prod.snd)).take 10
  ({ st with donationQueue := q1 },
   { donation := q1.find? (fun d => !d.delivered)
     top_spenders := tops
     queue_size := (q1.filter (fun d => !d.delivered)).length })

/-- The in-memory cleanup filter: drop records older than
`DONATION_LIFETIME`, and delivered records older than 30 seconds. -/
def cleanupOldDonations (q : List Donation) (now : Nat) : List Donation :=
  q.filter fun d =>
    let age : Int := (now : Int) - (d.received_at : Int)
    if age > DONATION_LIFETIME then false
    else if d.delivered = true ∧ age > 30000 then false
    else true

/-- The cleanup sweep on the whole in-memory state. -/
def cleanupState (st : MemState) (now : Nat) : MemState :=
  { st with donationQueue := cleanupOldDonations st.donationQueue now }

/-- State of the SQLite variant: the `donations` table (in insertion
order) and the `top_spenders` table keyed by the username text. -/
structure SqlState where
  donations : List Donation
  spenders : List (String × Spender)
deriving DecidableEq, Repr

/-- The `updateTopSpender` statement: `INSERT ... ON CONFLICT(username)
DO UPDATE SET total_amount = total_amount + excluded.total_amount,
display_name = excluded.display_name`. -/
def upsertSpenderSql (ts : List (String × Spender)) (u : JVal) (amt : Int) :
    List (String × Spender) :=
  match spLookup (jvalKey u) ts with
  | some _ =>
      ts.map fun kv =>
        if kv.1 = jvalKey u then
          (kv.1, { kv.2 with total_amount := kv.2.total_amount + amt, display_name := u })
        else kv
  | none => ts ++ [(jvalKey u, { username := u, display_name := u, total_amount := amt })]

/-- The `/saweria` handler of the SQLite variant, with an explicit fault
model for its two store mutations.  `insertFails` (resp. `upsertFails`)
models the `insertDonation.run` (resp. `updateTopSpender.run`) prepared
statement throwing; the surrounding `try/catch` then answers 400 without
rolling anything back (there is no transaction).  The returned `Bool` is
`true` for the success response, `false` for the 400 path. -/
def sqliteIngest (st : SqlState) (p : Payload) (newId : Nat) (ts : String) (now : Nat)
    (insertFails upsertFails : Bool) : SqlState × Bool :=
  if insertFails then (st, false)
  else
    let st1 : SqlState := { st with donations := st.donations ++ [mkDonation p newId ts now] }
    if upsertFails then (st1, false)
    else ({ st1 with
            spenders := upsertSpenderSql st.spenders (extractUsername p) (extractAmount p) },
          true)

/-- The element of minimal `received_at`, earliest first on ties. -/
def minByReceived : List Donation → Option Donation
  | [] => none
  | d :: rest =>
      match minByReceived rest with
      | none => some d
      | some m => if d.received_at ≤ m.received_at then some d else some m

/-- The `getUndeliveredDonation` statement: `SELECT * FROM donations
WHERE delivered = 0 ORDER BY received_at ASC LIMIT 1`. -/
def getUndeliveredDonation (ds : List Donation) : Option Donation :=
  minByReceived (ds.filter (fun d => !d.delivered))

/-- Iterated ingest of a list of (payload, id, timestamp, now) requests. -/
def ingestList (st : MemState) : List (Payload × Nat × String × Nat) → MemState
  | [] => st
  | (p, i, t, n) :: rest => ingestList (memIngest st p i t n).1 rest

/-! ### Helper lemmas on the alias chains -/

theorem firstTruthy_eq_none_of_all_falsy :
    ∀ l : List (Option JVal), (∀ o ∈ l, ∀ v, o = some v → truthy v = false) →
    firstTruthy l = none := by
  intro l h
  induction l with
  | nil => rfl
  | cons o rest ih =>
      cases o with
      | none =>
          simp only [firstTruthy]
          exact ih fun o ho v hv => h o (List.mem_cons_of_mem _ ho) v hv
      | some v =>
          have hv : truthy v = false := h (some v) (List.mem_cons_self _ _) v rfl
          simp only [firstTruthy, hv, if_neg Bool.false_ne_true]
          exact ih fun o ho w hw => h o (List.mem_cons_of_mem _ ho) w hw

theorem firstTruthy_skip (v : JVal) (hv : truthy v = false) :
    ∀ l1 l2 : List (Option JVal),
    firstTruthy (l1 ++ some v :: l2) = firstTruthy (l1 ++ l2) := by
  intro l1 l2
  induction l1 with
  | nil => simp [firstTruthy, hv]
  | cons o rest ih =>
      cases o with
      | none => simpa [firstTruthy] using ih
      | some w =>
          by_cases hw : truthy w = true
          · simp [firstTruthy, hw]
          · simp only [Bool.not_eq_true] at hw
            simpa [firstTruthy, hw] using ih

theorem firstAmount_skip (o : Option JVal)
    (ho : o.bind parseIntJS = none ∨ o.bind parseIntJS = some 0) :
    ∀ l1 l2 : List (Option JVal),
    firstAmount (l1 ++ o :: l2) = firstAmount (l1 ++ l2) := by
  intro l1 l2
  induction l1 with
  | nil =>
      rcases ho with h | h <;> simp [firstAmount, h]
  | cons o2 rest ih =>
      simp only [List.cons_append, firstAmount]
      cases h2 : o2.bind parseIntJS with
      | none => exact ih
      | some n =>
          by_cases hn : n = 0
          · simpa [hn] using ih
          · simp [hn]

theorem firstAmount_nonneg :
    ∀ l : List (Option JVal), (∀ o ∈ l, 0 ≤ (o.bind parseIntJS).getD 0) →
    0 ≤ firstAmount l := by
  intro l h
  induction l with
  | nil => simp [firstAmount]
  | cons o rest ih =>
      have hrest : 0 ≤ firstAmount rest :=
        ih fun o2 ho2 => h o2 (List.mem_cons_of_mem _ ho2)
      have hhead := h o (List.mem_cons_self _ _)
      simp only [firstAmount]
      cases ho : o.bind parseIntJS with
      | none => exact hrest
      | some n =>
          by_cases hn : n = 0
          · simpa [hn] using hrest
          · rw [ho] at hhead
            simpa [hn] using hhead

/-! ### C9 — ingest defaults when every alias field is missing -/

/-- C9: for every ingest payload in which every alias field of every
logical attribute is missing, the created Donation has username
"Anonymous", amount 0, and message "" (the empty string). -/
theorem ingest_defaults (p : Payload) (i : Nat) (t : String) (n : Nat)
    (h1 : p.donatur_name = none) (h2 : p.donator_name = none)
    (h3 : p.supporter_name = none) (h4 : p.supporter = none)
    (h5 : p.name = none) (h6 : p.username = none)
    (h7 : p.amount_raw = none) (h8 : p.amount = none)
    (h9 : p.nominal = none) (h10 : p.donation = none)
    (h11 : p.message = none) (h12 : p.pesan = none)
    (h13 : p.note = none) (h14 : p.comment = none) :
    (mkDonation p i t n).username = .str "Anonymous" ∧
    (mkDonation p i t n).amount = 0 ∧
    (mkDonation p i t n).message = .str "" := by
  cases p
  simp_all [mkDonation, extractUsername, extractAmount, extractMessage,
    usernameAliases, amountAliases, messageAliases, firstTruthy, firstAmount]

/-- Witness for C9 at the empty payload. -/
theorem ingest_defaults_witness :
    (mkDonation {} 1 "t" 0).username = .str "Anonymous" ∧
    (mkDonation {} 1 "t" 0).amount = 0 ∧
    (mkDonation {} 1 "t" 0).message = .str "" :=
  ingest_defaults {} 1 "t" 0 rfl rfl rfl rfl rfl rfl rfl rfl rfl rfl rfl rfl rfl rfl

/-! ### C10 — alias presence is judged by truthiness, not key existence -/

/-- C10: an alias field holding a falsy value is skipped in favour of the
next alias or the fallback: a username (or message) alias whose value is
falsy (for instance the empty string) drops out of its `||` chain, an
amount alias whose `parseInt` is `NaN` or `0` drops out of its chain, and
a payload whose every username alias is present but falsy (for instance
all equal to "") yields username "Anonymous"; likewise all-falsy message
aliases yield "". -/
theorem truthiness_skips_falsy :
    (∀ p : Payload, (∀ o ∈ usernameAliases p, ∀ v, o = some v → truthy v = false) →
       extractUsername p = .str "Anonymous") ∧
    (∀ p : Payload, (∀ o ∈ messageAliases p, ∀ v, o = some v → truthy v = false) →
       extractMessage p = .str "") ∧
    (∀ (v : JVal) (l1 l2 : List (Option JVal)), truthy v = false →
       firstTruthy (l1 ++ some v :: l2) = firstTruthy (l1 ++ l2)) ∧
    (∀ (o : Option JVal) (l1 l2 : List (Option JVal)),
       o.bind parseIntJS = none ∨ o.bind parseIntJS = some 0 →
       firstAmount (l1 ++ o :: l2) = firstAmount (l1 ++ l2)) := by
  refine ⟨?_, ?_, ?_, ?_⟩
  · intro p h
    unfold extractUsername
    rw [firstTruthy_eq_none_of_all_falsy _ h]
    rfl
  · intro p h
    unfold extractMessage
    rw [firstTruthy_eq_none_of_all_falsy _ h]
    rfl
  · intro v l1 l2 hv
    exact firstTruthy_skip v hv l1 l2
  · intro o l1 l2 ho
    exact firstAmount_skip o ho l1 l2

/-- Witness for C10: every username alias present but equal to "" yields
"Anonymous", and an amount alias parsing to `NaN` is skipped. -/
theorem truthiness_skips_falsy_witness :
    extractUsername
      { donatur_name := some (.str ""), donator_name := some (.str "")
        supporter_name := some (.str ""), supporter := some (.str "")
        name := some (.str ""), username := some (.str "") } = .str "Anonymous" ∧
    firstAmount [some (.str "abc"), some (.str "7")] = firstAmount [some (.str "7")] :=
  ⟨truthiness_skips_falsy.1 _ (by decide),
   truthiness_skips_falsy.2.2.2 (some (.str "abc")) [] [some (.str "7")] (by decide)⟩

/-! ### C2 — alias precedence (corrected) -/

/-- C2 counterexample: the claim says a non-numeric first amount alias
yields amount 0 rather than the value of a later alias, but
`parseInt("abc")` is `NaN`, which is falsy, so the `||` chain falls
through to the later alias: the extracted amount is 500, not 0. -/
theorem amount_alias_fallthrough_cex :
    extractAmount
      ({ amount_raw := some (.str "abc"), amount := some (.str "500") } : Payload) = 500 ∧
    (500 : Int) ≠ 0 := by
  constructor
  · decide
  · decide

/-- C2 amended: among truthy alias values the first-listed alias wins
(shown for the head alias of each chain), and the amount is taken from
the first alias whose `parseInt` is a nonzero integer; a non-numeric
first amount alias is skipped — the chain behaves as if that field were
absent — rather than forcing amount 0. -/
theorem alias_precedence :
    (∀ (p : Payload) (v : JVal), p.donatur_name = some v → truthy v = true →
       extractUsername p = v) ∧
    (∀ (p : Payload) (v : JVal), p.message = some v → truthy v = true →
       extractMessage p = v) ∧
    (∀ (p : Payload) (v : JVal) (n : Int), p.amount_raw = some v →
       parseIntJS v = some n → n ≠ 0 → extractAmount p = n) ∧
    (∀ (p : Payload) (v : JVal), p.amount_raw = some v → parseIntJS v = none →
       extractAmount p = extractAmount { p with amount_raw := none }) := by
  refine ⟨?_, ?_, ?_, ?_⟩
  · intro p v hp hv
    simp [extractUsername, usernameAliases, hp, firstTruthy, hv]
  · intro p v hp hv
    simp [extractMessage, messageAliases, hp, firstTruthy, hv]
  · intro p v n hp hn hnz
    simp [extractAmount, amountAliases, hp, firstAmount, hn, hnz]
  · intro p v hp hn
    simp [extractAmount, amountAliases, hp, firstAmount, hn]

/-- Witness for C2 at the documented example payload
`{"donatur_name":"Budi","amount_raw":"5000","message":"hi"}`. -/
theorem alias_precedence_witness :
    extractUsername
      { donatur_name := some (.str "Budi"), amount_raw := some (.str "5000")
        message := some (.str "hi") } = .str "Budi" ∧
    extractAmount
      { donatur_name := some (.str "Budi"), amount_raw := some (.str "5000")
        message := some (.str "hi") } = 5000 :=
  ⟨alias_precedence.1 _ (.str "Budi") rfl (by decide),
   alias_precedence.2.2.1 _ (.str "5000") 5000 rfl (by decide) (by decide)⟩

/-! ### C3 — amount non-negativity (corrected) -/

/-- C3 counterexample: the claim says no reachable donation record has a
negative amount, but an ingest of `{"amount_raw":"-5"}` stores amount
-5: `parseInt("-5")` is -5, which is truthy, so it is not coerced to 0. -/
theorem negative_amount_cex :
    ((memIngest ⟨[], []⟩ ({ amount_raw := some (.str "-5") } : Payload)
        1 "t" 0).1.donationQueue.map Donation.amount) = [-5] ∧
    (-5 : Int) < 0 := by
  constructor
  · decide
  · decide

/-- C3 amended: the stored amount is an integer and non-numeric input is
coerced to 0; when no present amount alias parses to a negative integer
the created Donation has amount ≥ 0, but a negative numeric alias value
is stored as-is, so a donation record can have a negative amount. -/
theorem amount_nonneg_of_nonneg_aliases (p : Payload) (i : Nat) (t : String) (n : Nat)
    (h : ∀ o ∈ amountAliases p, 0 ≤ (o.bind parseIntJS).getD 0) :
    0 ≤ (mkDonation p i t n).amount := by
  have : (mkDonation p i t n).amount = firstAmount (amountAliases p) := rfl
  rw [this]
  exact firstAmount_nonneg _ h

/-- Witness for C3 at the payload `{"amount_raw":"7"}`. -/
theorem amount_nonneg_witness :
    0 ≤ (mkDonation ({ amount_raw := some (.str "7") } : Payload) 1 "t" 0).amount :=
  amount_nonneg_of_nonneg_aliases _ 1 "t" 0 (by decide)

/-! ### C8 — in-memory queue bound -/

/-- C8: an ingest from a queue of at most `MAX_QUEUE_SIZE` (20) entries
leaves at most 20 entries, and an ingest from a full queue drops the
front entry — whatever its delivered flag — while appending the new
donation at the back. -/
theorem queue_bounded_by_max (st : MemState) (p : Payload) (i : Nat) (t : String) (n : Nat) :
    (st.donationQueue.length ≤ MAX_QUEUE_SIZE →
      (memIngest st p i t n).1.donationQueue.length ≤ MAX_QUEUE_SIZE) ∧
    (st.donationQueue.length = MAX_QUEUE_SIZE →
      (memIngest st p i t n).1.donationQueue =
        st.donationQueue.drop 1 ++ [mkDonation p i t n]) := by
  constructor
  · intro hle
    simp only [memIngest, List.length_append, List.length_cons, List.length_nil]
    by_cases hgt : st.donationQueue.length + 1 > MAX_QUEUE_SIZE
    · simp only [hgt, if_pos, List.length_drop, List.length_append]
      simp only [List.length_cons, List.length_nil]
      omega
    · simp only [hgt, if_neg, List.length_append, List.length_cons, List.length_nil]
      simp only [Bool.false_eq_true, if_false]
      simp only [List.length_append, List.length_cons, List.length_nil]
      omega
  · intro heq
    have hgt : (st.donationQueue ++ [mkDonation p i t n]).length > MAX_QUEUE_SIZE := by
      simp [heq]
    simp only [memIngest, hgt, if_pos]
    rw [List.drop_append_of_le_length]
    rw [heq]
    decide

/-- Witness for C8 at a full queue of 20 donations. -/
theorem queue_bounded_by_max_witness :
    ((List.range MAX_QUEUE_SIZE).map
        (fun k => mkDonation {} k "t" k)).length ≤ MAX_QUEUE_SIZE ∧
    (memIngest ⟨(List.range MAX_QUEUE_SIZE).map (fun k => mkDonation {} k "t" k), []⟩
        {} 99 "t" 99).1.donationQueue.length ≤ MAX_QUEUE_SIZE :=
  ⟨by decide,
   (queue_bounded_by_max
      ⟨(List.range MAX_QUEUE_SIZE).map (fun k => mkDonation {} k "t" k), []⟩
      {} 99 "t" 99).1 (by decide)⟩

/-! ### C7 — confirm is an idempotent no-op on unknown or repeated ids -/

theorem markFirstDelivered_idem (cid : Nat) :
    ∀ q : List Donation, markFirstDelivered (markFirstDelivered q cid) cid =
      markFirstDelivered q cid := by
  intro q
  induction q with
  | nil => rfl
  | cons d rest ih =>
      by_cases hid : d.id = cid
      · simp [markFirstDelivered, hid]
      · simp [markFirstDelivered, hid, ih]

theorem markFirstDelivered_of_not_mem (cid : Nat) :
    ∀ q : List Donation, (∀ d ∈ q, d.id ≠ cid) → markFirstDelivered q cid = q := by
  intro q h
  induction q with
  | nil => rfl
  | cons d rest ih =>
      have hd : d.id ≠ cid := h d (List.mem_cons_self _ _)
      simp only [markFirstDelivered, hd, if_neg, ite_false]
      rw [ih fun x hx => h x (List.mem_cons_of_mem _ hx)]

/-- C7: confirming the same donation id a second time leaves the store
state and the reported queue_size exactly as after the first confirm,
and confirming an id matching no queued donation is a no-op: the state
is unchanged and the reported queue_size equals that of a plain poll.
The handler answers normally in every case (the model is total). -/
theorem confirm_idempotent_noop (st : MemState) (cid : Nat) :
    ((robloxCheck (robloxCheck st (some cid)).1 (some cid)).1 =
        (robloxCheck st (some cid)).1 ∧
     (robloxCheck (robloxCheck st (some cid)).1 (some cid)).2.queue_size =
        (robloxCheck st (some cid)).2.queue_size) ∧
    ((∀ d ∈ st.donationQueue, d.id ≠ cid) →
      (robloxCheck st (some cid)).1 = st ∧
      (robloxCheck st (some cid)).2.queue_size = (robloxCheck st none).2.queue_size) := by
  constructor
  · constructor
    · simp [robloxCheck, markFirstDelivered_idem]
    · simp [robloxCheck, markFirstDelivered_idem]
  · intro h
    have hq : markFirstDelivered st.donationQueue cid = st.donationQueue :=
      markFirstDelivered_of_not_mem cid st.donationQueue h
    constructor
    · cases st
      simp_all [robloxCheck]
    · simp [robloxCheck, hq]

/-- Witness for C7: one queued donation with id 1, confirmed with the
unknown id 2. -/
theorem confirm_idempotent_noop_witness :
    (robloxCheck ⟨[mkDonation {} 1 "t" 0], []⟩ (some 2)).1 =
      ⟨[mkDonation {} 1 "t" 0], []⟩ ∧
    (robloxCheck ⟨[mkDonation {} 1 "t" 0], []⟩ (some 2)).2.queue_size =
      (robloxCheck ⟨[mkDonation {} 1 "t" 0], []⟩ none).2.queue_size :=
  (confirm_idempotent_noop ⟨[mkDonation {} 1 "t" 0], []⟩ 2).2 (by decide)

/-! ### Helper lemmas on the leaderboard association list -/

theorem spLookup_append (k : String) :
    ∀ l1 l2 : List (String × Spender), spLookup k (l1 ++ l2) =
      match spLookup k l1 with
      | some v => some v
      | none => spLookup k l2 := by
  intro l1 l2
  induction l1 with
  | nil => simp [spLookup]
  | cons kv rest ih =>
      by_cases hk : kv.1 = k
      · simp [spLookup, hk]
      · simp only [List.cons_append, spLookup, hk, if_neg, ite_false]
        exact ih

theorem spLookup_map_add (k : String) (amt : Int) :
    ∀ (ts : List (String × Spender)) (sp : Spender), spLookup k ts = some sp →
    spLookup k (ts.map fun kv =>
        if kv.1 = k then (kv.1, { kv.2 with total_amount := kv.2.total_amount + amt })
        else kv) =
      some { sp with total_amount := sp.total_amount + amt } := by
  intro ts
  induction ts with
  | nil => intro sp h; cases h
  | cons kv rest ih =>
      intro sp h
      by_cases hk : kv.1 = k
      · simp only [spLookup, hk, if_pos, ite_true] at h
        cases h
        simp [spLookup, hk]
      · simp only [spLookup, hk, if_neg, ite_false] at h
        simp only [List.map_cons, hk, if_neg, ite_false, spLookup]
        exact ih sp h

theorem spLookup_map_other (k k2 : String) (amt : Int) (u : JVal) (hne : k2 ≠ k) :
    ∀ ts : List (String × Spender),
    spLookup k2 (ts.map fun kv =>
        if kv.1 = k then
          (kv.1, { kv.2 with total_amount := kv.2.total_amount + amt, display_name := u })
        else kv) = spLookup k2 ts := by
  intro ts
  induction ts with
  | nil => rfl
  | cons kv rest ih =>
      have hkk : ¬(k = k2) := fun h2 => hne h2.symm
      by_cases hk : kv.1 = k
      · simp only [List.map_cons, hk, if_pos, ite_true, spLookup]
        rw [if_neg hkk, if_neg hkk, ih]
      · simp only [List.map_cons, hk, if_neg, ite_false, spLookup]
        by_cases hk2 : kv.1 = k2
        · simp [hk2]
        · rw [if_neg hk2, if_neg hk2, ih]

theorem spLookup_map_other_mem (k k2 : String) (amt : Int) (hne : k2 ≠ k) :
    ∀ ts : List (String × Spender),
    spLookup k2 (ts.map fun kv =>
        if kv.1 = k then (kv.1, { kv.2 with total_amount := kv.2.total_amount + amt })
        else kv) = spLookup k2 ts := by
  intro ts
  induction ts with
  | nil => rfl
  | cons kv rest ih =>
      have hkk : ¬(k = k2) := fun h2 => hne h2.symm
      by_cases hk : kv.1 = k
      · simp only [List.map_cons, hk, if_pos, ite_true, spLookup]
        rw [if_neg hkk, if_neg hkk, ih]
      · simp only [List.map_cons, hk, if_neg, ite_false, spLookup]
        by_cases hk2 : kv.1 = k2
        · simp [hk2]
        · rw [if_neg hk2, if_neg hk2, ih]

theorem spLookup_upsertMem_self (ts : List (String × Spender)) (u : JVal) (amt : Int)
    (sp : Spender) (h : spLookup (jvalKey u) ts = some sp) :
    spLookup (jvalKey u) (upsertSpenderMem ts u amt) =
      some { sp with total_amount := sp.total_amount + amt } := by
  simp only [upsertSpenderMem, h]
  exact spLookup_map_add (jvalKey u) amt ts sp h

theorem spLookup_upsertMem_none (ts : List (String × Spender)) (u : JVal) (amt : Int)
    (h : spLookup (jvalKey u) ts = none) :
    spLookup (jvalKey u) (upsertSpenderMem ts u amt) =
      some { username := u, display_name := u, total_amount := 0 + amt } := by
  simp only [upsertSpenderMem, h, spLookup_append]
  simp [spLookup]

theorem spLookup_upsertMem_other (ts : List (String × Spender)) (u : JVal) (amt : Int)
    (k2 : String) (hne : k2 ≠ jvalKey u) :
    spLookup k2 (upsertSpenderMem ts u amt) = spLookup k2 ts := by
  cases h : spLookup (jvalKey u) ts with
  | some sp =>
      simp only [upsertSpenderMem, h]
      exact spLookup_map_other_mem (jvalKey u) k2 amt hne ts
  | none =>
      simp only [upsertSpenderMem, h, spLookup_append]
      cases h2 : spLookup k2 ts with
      | some v => simp [h2]
      | none =>
          simp [h2, spLookup, show jvalKey u ≠ k2 from fun h3 => hne h3.symm]

/-! ### C4 — leaderboard totals under the operations (corrected) -/

/-- C4 counterexample: the claim says no operation ever decreases a
stored total_amount, but ingesting `{"amount_raw":"-5"}` for a username
whose entry holds 100 leaves the entry at 95: ingest adds the extracted
amount, which can be negative. -/
theorem total_amount_decrease_cex :
    spLookup "Budi"
      ((memIngest ⟨[], []⟩
          ({ donatur_name := some (.str "Budi"), amount_raw := some (.str "100") } : Payload)
          1 "t" 0).1).topSpenders =
      some { username := .str "Budi", display_name := .str "Budi", total_amount := 100 } ∧
    spLookup "Budi"
      ((memIngest
          (memIngest ⟨[], []⟩
            ({ donatur_name := some (.str "Budi"), amount_raw := some (.str "100") } : Payload)
            1 "t" 0).1
          ({ donatur_name := some (.str "Budi"), amount_raw := some (.str "-5") } : Payload)
          2 "t" 1).1).topSpenders =
      some { username := .str "Budi", display_name := .str "Budi", total_amount := 95 } ∧
    (95 : Int) < 100 := by
  refine ⟨by decide, by decide, by decide⟩

/-- C4 amended: poll/confirm and cleanup never change any leaderboard
entry, and ingest changes only by adding the extracted amount to the
ingested username, so an existing total_amount never decreases as long
as the extracted amount is non-negative; a negative extracted amount
(reachable through a negative numeric alias value) decreases it. -/
theorem total_amount_monotone_ops :
    (∀ (st : MemState) (cid : Option Nat), ((robloxCheck st cid).1).topSpenders = st.topSpenders) ∧
    (∀ (st : MemState) (now : Nat), (cleanupState st now).topSpenders = st.topSpenders) ∧
    (∀ (st : MemState) (p : Payload) (i : Nat) (t : String) (n : Nat)
       (key : String) (sp : Spender),
       spLookup key st.topSpenders = some sp → 0 ≤ extractAmount p →
       ∃ sp2, spLookup key ((memIngest st p i t n).1).topSpenders = some sp2 ∧
         sp.total_amount ≤ sp2.total_amount) := by
  refine ⟨fun st cid => rfl, fun st now => rfl, ?_⟩
  intro st p i t n key sp hsp hamt
  have hts : ((memIngest st p i t n).1).topSpenders =
      upsertSpenderMem st.topSpenders (extractUsername p) (extractAmount p) := rfl
  rw [hts]
  by_cases hk : key = jvalKey (extractUsername p)
  · subst hk
    refine ⟨_, spLookup_upsertMem_self _ _ _ sp hsp, ?_⟩
    simpa using hamt
  · exact ⟨sp, by rw [spLookup_upsertMem_other _ _ _ _ hk]; exact hsp, le_refl _⟩

/-- Witness for C4: an entry at 100 stays at least 100 after an ingest
of amount 50 for the same username. -/
theorem total_amount_monotone_witness :
    ∃ sp2, spLookup "Budi"
        ((memIngest
            ⟨[], [("Budi", { username := .str "Budi", display_name := .str "Budi",
                             total_amount := 100 })]⟩
            ({ donatur_name := some (.str "Budi"), amount_raw := some (.str "50") } : Payload)
            1 "t" 0).1).topSpenders = some sp2 ∧
      (100 : Int) ≤ sp2.total_amount :=
  total_amount_monotone_ops.2.2
    ⟨[], [("Budi", { username := .str "Budi", display_name := .str "Budi",
                     total_amount := 100 })]⟩
    ({ donatur_name := some (.str "Budi"), amount_raw := some (.str "50") } : Payload)
    1 "t" 0 "Budi"
    { username := .str "Budi", display_name := .str "Budi", total_amount := 100 }
    (by decide) (by decide)

/-! ### C5 — leaderboard total is the sum of ingested amounts -/

theorem leaderboard_accum (u : JVal) :
    ∀ (items : List (Payload × Nat × String × Nat)) (st : MemState) (sp : Spender),
    (∀ it ∈ items, extractUsername it.1 = u) →
    spLookup (jvalKey u) st.topSpenders = some sp →
    ∃ sp2, spLookup (jvalKey u) (ingestList st items).topSpenders = some sp2 ∧
      sp2.total_amount = sp.total_amount + (items.map (fun it => extractAmount it.1)).sum ∧
      sp2.username = sp.username := by
  intro items
  induction items with
  | nil =>
      intro st sp _ hsp
      exact ⟨sp, hsp, by simp, rfl⟩
  | cons it rest ih =>
      intro st sp hu hsp
      obtain ⟨p, i, t, n⟩ := it
      have hup : extractUsername p = u := hu (p, i, t, n) (List.mem_cons_self _ _)
      have hstep : spLookup (jvalKey u) ((memIngest st p i t n).1).topSpenders =
          some { sp with total_amount := sp.total_amount + extractAmount p } := by
        have : ((memIngest st p i t n).1).topSpenders =
            upsertSpenderMem st.topSpenders (extractUsername p) (extractAmount p) := rfl
        rw [this, hup]
        exact spLookup_upsertMem_self _ _ _ sp hsp
      obtain ⟨sp2, hsp2, htot, huser⟩ :=
        ih ((memIngest st p i t n).1) { sp with total_amount := sp.total_amount + extractAmount p }
          (fun it2 h2 => hu it2 (List.mem_cons_of_mem _ h2)) hstep
      refine ⟨sp2, hsp2, ?_, huser⟩
      simp only [List.map_cons, List.sum_cons] at htot ⊢
      rw [htot]
      ring

/-- C5: after N ingests whose payloads all extract to the same username,
starting from a state whose leaderboard has no entry for that username,
the entry holds exactly the sum of the N extracted amounts. -/
theorem leaderboard_total_is_sum (items : List (Payload × Nat × String × Nat)) (u : JVal)
    (st : MemState) (hne : items ≠ [])
    (hu : ∀ it ∈ items, extractUsername it.1 = u)
    (h0 : spLookup (jvalKey u) st.topSpenders = none) :
    ∃ sp, spLookup (jvalKey u) (ingestList st items).topSpenders = some sp ∧
      sp.total_amount = (items.map (fun it => extractAmount it.1)).sum ∧
      sp.username = u := by
  cases items with
  | nil => exact absurd rfl hne
  | cons it rest =>
      obtain ⟨p, i, t, n⟩ := it
      have hup : extractUsername p = u := hu (p, i, t, n) (List.mem_cons_self _ _)
      have hstep : spLookup (jvalKey u) ((memIngest st p i t n).1).topSpenders =
          some { username := u, display_name := u, total_amount := 0 + extractAmount p } := by
        have : ((memIngest st p i t n).1).topSpenders =
            upsertSpenderMem st.topSpenders (extractUsername p) (extractAmount p) := rfl
        rw [this, hup]
        exact spLookup_upsertMem_none _ _ _ h0
      obtain ⟨sp2, hsp2, htot, huser⟩ :=
        leaderboard_accum u rest ((memIngest st p i t n).1)
          { username := u, display_name := u, total_amount := 0 + extractAmount p }
          (fun it2 h2 => hu it2 (List.mem_cons_of_mem _ h2)) hstep
      refine ⟨sp2, by simpa [ingestList] using hsp2, ?_, huser⟩
      simp only [List.map_cons, List.sum_cons] at htot ⊢
      rw [htot]
      ring

/-- Witness for C5: two ingests of 100 and 50 for "Budi" give total 150. -/
theorem leaderboard_total_is_sum_witness :
    ∃ sp, spLookup "Budi"
        (ingestList ⟨[], []⟩
          [({ donatur_name := some (.str "Budi"), amount_raw := some (.str "100") }, 1, "t", 0),
           ({ donatur_name := some (.str "Budi"), amount_raw := some (.str "50") }, 2, "t", 1)]
          ).topSpenders = some sp ∧
      sp.total_amount =
        ([({ donatur_name := some (.str "Budi"), amount_raw := some (.str "100") }, 1, "t", 0),
          ({ donatur_name := some (.str "Budi"), amount_raw := some (.str "50") }, 2, "t", 1)].map
            (fun it => extractAmount it.1)).sum ∧
      sp.username = .str "Budi" :=
  leaderboard_total_is_sum
    [({ donatur_name := some (.str "Budi"), amount_raw := some (.str "100") }, 1, "t", 0),
     ({ donatur_name := some (.str "Budi"), amount_raw := some (.str "50") }, 2, "t", 1)]
    (.str "Budi") ⟨[], []⟩ (by decide) (by decide) rfl

/-! ### C6 — poll returns the oldest undelivered donation -/

theorem minByReceived_eq_none (l : List Donation) : minByReceived l = none ↔ l = [] := by
  cases l with
  | nil => simp [minByReceived]
  | cons d rest =>
      constructor
      · intro h
        exfalso
        cases h2 : minByReceived rest with
        | none => simp [minByReceived, h2] at h
        | some m0 =>
            simp only [minByReceived, h2] at h
            split at h <;> exact Option.noConfusion h
      · intro h
        exact List.noConfusion h

theorem minByReceived_spec :
    ∀ (l : List Donation) (m : Donation), minByReceived l = some m →
    m ∈ l ∧ ∀ x ∈ l, m.received_at ≤ x.received_at := by
  intro l
  induction l with
  | nil => intro m h; cases h
  | cons d rest ih =>
      intro m h
      cases h2 : minByReceived rest with
      | none =>
          have hrest : rest = [] := (minByReceived_eq_none rest).1 h2
          subst hrest
          simp only [minByReceived, Option.some.injEq] at h
          subst h
          refine ⟨List.mem_cons_self _ _, ?_⟩
          intro x hx
          rw [List.mem_singleton] at hx
          subst hx
          exact le_refl _
      | some m0 =>
          simp only [minByReceived, h2] at h
          obtain ⟨hm0, hall⟩ := ih m0 h2
          by_cases hled : d.received_at ≤ m0.received_at
          · rw [if_pos hled, Option.some_inj] at h
            subst h
            refine ⟨List.mem_cons_self _ _, ?_⟩
            intro x hx
            rcases List.mem_cons.1 hx with hx | hx
            · subst hx; exact le_refl _
            · exact le_trans hled (hall x hx)
          · rw [if_neg hled, Option.some_inj] at h
            subst h
            refine ⟨List.mem_cons_of_mem _ hm0, ?_⟩
            intro x hx
            rcases List.mem_cons.1 hx with hx | hx
            · subst hx; exact le_of_not_le hled
            · exact hall x hx

theorem find_undelivered_none (l : List Donation) :
    l.find? (fun x => !x.delivered) = none ↔ ∀ d ∈ l, d.delivered = true := by
  rw [List.find?_eq_none]
  simp

theorem find_undelivered_min :
    ∀ (l : List Donation) (d : Donation),
    List.Pairwise (fun a b => a.received_at ≤ b.received_at) l →
    l.find? (fun x => !x.delivered) = some d →
    ∀ x ∈ l, x.delivered = false → d.received_at ≤ x.received_at := by
  intro l
  induction l with
  | nil => intro d _ h; cases h
  | cons a rest ih =>
      intro d hp hf
      rw [List.pairwise_cons] at hp
      obtain ⟨ha, hrest⟩ := hp
      by_cases hdel : a.delivered = true
      · have hf2 : rest.find? (fun x => !x.delivered) = some d := by
          simpa [List.find?_cons, hdel] using hf
        intro x hx hxdel
        rcases List.mem_cons.1 hx with hx | hx
        · subst hx; rw [hdel] at hxdel; exact absurd hxdel (by simp)
        · exact ih d hrest hf2 x hx hxdel
      · rw [Bool.not_eq_true] at hdel
        have hf2 : d = a := by
          have := hf
          simp only [List.find?_cons, hdel] at this
          exact (Option.some_inj.1 this).symm
        subst hf2
        intro x hx hxdel
        rcases List.mem_cons.1 hx with hx | hx
        · subst hx; exact le_refl _
        · exact ha x hx

theorem find_undelivered_spec (l : List Donation) (d : Donation)
    (hp : List.Pairwise (fun a b => a.received_at ≤ b.received_at) l)
    (hf : l.find? (fun x => !x.delivered) = some d) :
    d ∈ l ∧ d.delivered = false ∧
    ∀ x ∈ l, x.delivered = false → d.received_at ≤ x.received_at :=
  ⟨List.mem_of_find?_eq_some hf, by simpa using List.find?_some hf,
   find_undelivered_min l d hp hf⟩

theorem markFirstDelivered_map_received (cid : Nat) :
    ∀ q : List Donation,
    (markFirstDelivered q cid).map Donation.received_at = q.map Donation.received_at := by
  intro q
  induction q with
  | nil => rfl
  | cons d rest ih =>
      by_cases h : d.id = cid <;> simp [markFirstDelivered, h, ih]

theorem pairwise_markFirstDelivered (cid : Nat) (q : List Donation)
    (hp : List.Pairwise (fun a b => a.received_at ≤ b.received_at) q) :
    List.Pairwise (fun a b => a.received_at ≤ b.received_at) (markFirstDelivered q cid) := by
  have h1 : (q.map Donation.received_at).Pairwise (fun a b => a ≤ b) :=
    List.pairwise_map.mpr hp
  have h2 : ((markFirstDelivered q cid).map Donation.received_at).Pairwise
      (fun a b => a ≤ b) := by
    rw [markFirstDelivered_map_received]
    exact h1
  exact List.pairwise_map.mp h2

/-- C6: the SQLite query returns the undelivered donation of smallest
received_at (`none` exactly when every donation is delivered), and the
in-memory poll — which takes the first undelivered donation in queue
order — returns the undelivered donation of smallest received_at
whenever the queue is ordered by received_at, which every reachable
queue is since entries are appended with the current clock value. -/
theorem poll_returns_oldest_undelivered :
    (∀ ds : List Donation,
      (getUndeliveredDonation ds = none ↔ ∀ d ∈ ds, d.delivered = true)) ∧
    (∀ (ds : List Donation) (d : Donation), getUndeliveredDonation ds = some d →
      d ∈ ds ∧ d.delivered = false ∧
      ∀ d2 ∈ ds, d2.delivered = false → d.received_at ≤ d2.received_at) ∧
    (∀ (st : MemState) (cid : Option Nat),
      List.Pairwise (fun a b => a.received_at ≤ b.received_at) st.donationQueue →
      (((robloxCheck st cid).2.donation = none ↔
          ∀ d ∈ (robloxCheck st cid).1.donationQueue, d.delivered = true) ∧
       ∀ d, (robloxCheck st cid).2.donation = some d →
         d ∈ (robloxCheck st cid).1.donationQueue ∧ d.delivered = false ∧
         ∀ d2 ∈ (robloxCheck st cid).1.donationQueue, d2.delivered = false →
           d.received_at ≤ d2.received_at)) := by
  refine ⟨?_, ?_, ?_⟩
  · intro ds
    unfold getUndeliveredDonation
    rw [minByReceived_eq_none, List.filter_eq_nil_iff]
    simp
  · intro ds d h
    unfold getUndeliveredDonation at h
    obtain ⟨hmem, hall⟩ := minByReceived_spec _ d h
    rw [List.mem_filter] at hmem
    obtain ⟨hds, hpd⟩ := hmem
    refine ⟨hds, by simpa using hpd, ?_⟩
    intro d2 hd2 hdel
    exact hall d2 (List.mem_filter.2 ⟨hd2, by simp [hdel]⟩)
  · intro st cid hp
    cases cid with
    | none =>
        exact ⟨find_undelivered_none st.donationQueue,
          fun d hd => find_undelivered_spec st.donationQueue d hp hd⟩
    | some c =>
        have hp2 := pairwise_markFirstDelivered c st.donationQueue hp
        exact ⟨find_undelivered_none (markFirstDelivered st.donationQueue c),
          fun d hd => find_undelivered_spec (markFirstDelivered st.donationQueue c) d hp2 hd⟩

/-- Witness for C6: of two undelivered donations received at 5 and 3,
the query returns the one received at 3. -/
theorem poll_returns_oldest_undelivered_witness :
    mkDonation {} 2 "t" 3 ∈ [mkDonation {} 1 "t" 5, mkDonation {} 2 "t" 3] ∧
    (mkDonation {} 2 "t" 3).delivered = false ∧
    ∀ d2 ∈ [mkDonation {} 1 "t" 5, mkDonation {} 2 "t" 3], d2.delivered = false →
      (mkDonation {} 2 "t" 3).received_at ≤ d2.received_at :=
  poll_returns_oldest_undelivered.2.1
    [mkDonation {} 1 "t" 5, mkDonation {} 2 "t" 3] (mkDonation {} 2 "t" 3) (by decide)

/-- Every reachable in-memory queue is ordered by received_at: ingest
with a clock value at least every queued stamp, confirm, and cleanup all
preserve the order. -/
theorem queue_sorted_preserved :
    (∀ (st : MemState) (p : Payload) (i : Nat) (t : String) (n : Nat),
      List.Pairwise (fun a b => a.received_at ≤ b.received_at) st.donationQueue →
      (∀ d ∈ st.donationQueue, d.received_at ≤ n) →
      List.Pairwise (fun a b => a.received_at ≤ b.received_at)
        ((memIngest st p i t n).1.donationQueue)) ∧
    (∀ (st : MemState) (cid : Option Nat),
      List.Pairwise (fun a b => a.received_at ≤ b.received_at) st.donationQueue →
      List.Pairwise (fun a b => a.received_at ≤ b.received_at)
        ((robloxCheck st cid).1.donationQueue)) ∧
    (∀ (st : MemState) (now : Nat),
      List.Pairwise (fun a b => a.received_at ≤ b.received_at) st.donationQueue →
      List.Pairwise (fun a b => a.received_at ≤ b.received_at)
        ((cleanupState st now).donationQueue)) := by
  refine ⟨?_, ?_, ?_⟩
  · intro st p i t n hp hle
    have happ : List.Pairwise (fun a b => a.received_at ≤ b.received_at)
        (st.donationQueue ++ [mkDonation p i t n]) := by
      rw [List.pairwise_append]
      refine ⟨hp, List.pairwise_singleton _ _, ?_⟩
      intro a hha b hb
      rw [List.mem_singleton] at hb
      subst hb
      exact hle a hha
    simp only [memIngest]
    split
    · exact happ.sublist (List.drop_sublist 1 _)
    · exact happ
  · intro st cid hp
    cases cid with
    | none => exact hp
    | some c => exact pairwise_markFirstDelivered c st.donationQueue hp
  · intro st now hp
    exact hp.sublist (List.filter_sublist _)

/-! ### C1 — ingest atomicity (corrected) -/

/-- C1 counterexample: the claim says that when a step of ingest raises,
no store mutation is visible and a queue entry is never applied without
the leaderboard update; but the SQLite variant runs `insertDonation` and
`updateTopSpender` as two separate statements with no transaction, so
when the top-spender upsert raises after a successful insert, the 400
response leaves the inserted donation visible and the leaderboard
untouched. -/
theorem sqlite_ingest_partial_state_cex :
    (sqliteIngest ⟨[], []⟩
        ({ donatur_name := some (.str "Budi"), amount_raw := some (.str "5000") } : Payload)
        1 "t" 5 false true).2 = false ∧
    (sqliteIngest ⟨[], []⟩
        ({ donatur_name := some (.str "Budi"), amount_raw := some (.str "5000") } : Payload)
        1 "t" 5 false true).1.donations ≠ [] ∧
    (sqliteIngest ⟨[], []⟩
        ({ donatur_name := some (.str "Budi"), amount_raw := some (.str "5000") } : Payload)
        1 "t" 5 false true).1.spenders = [] := by
  refine ⟨by decide, by decide, by decide⟩

/-- C1 amended: a failure at the donation insert (the first mutation)
leaves the store unchanged, and a fully successful ingest applies the
queue entry and the leaderboard update together; but a failure of the
top-spender upsert after a successful insert leaves the queue entry
visible without any leaderboard update, because the two statements are
not wrapped in a transaction.  (The in-memory variant mutates both
stores in one synchronous step and cannot fail between them.) -/
theorem sqlite_ingest_fault_atomicity (st : SqlState) (p : Payload) (i : Nat)
    (t : String) (n : Nat) (f1 f2 : Bool) :
    (f1 = true → sqliteIngest st p i t n f1 f2 = (st, false)) ∧
    ((sqliteIngest st p i t n f1 f2).2 = true →
      (sqliteIngest st p i t n f1 f2).1 =
        { donations := st.donations ++ [mkDonation p i t n]
          spenders := upsertSpenderSql st.spenders (extractUsername p) (extractAmount p) }) ∧
    (f1 = false → f2 = true →
      sqliteIngest st p i t n f1 f2 =
        ({ st with donations := st.donations ++ [mkDonation p i t n] }, false)) := by
  refine ⟨?_, ?_, ?_⟩
  · intro h1
    simp [sqliteIngest, h1]
  · intro hok
    cases f1 with
    | true => simp [sqliteIngest] at hok
    | false =>
        cases f2 with
        | true => simp [sqliteIngest] at hok
        | false => rfl
  · intro h1 h2
    subst h1
    subst h2
    rfl

/-- Witness for C1: a fully successful ingest applies both mutations,
and an insert-step failure leaves the empty store empty. -/
theorem sqlite_ingest_fault_atomicity_witness :
    (sqliteIngest ⟨[], []⟩ {} 1 "t" 0 false false).1 =
      { donations := ([] : List Donation) ++ [mkDonation {} 1 "t" 0]
        spenders := upsertSpenderSql [] (extractUsername {}) (extractAmount {}) } ∧
    sqliteIngest ⟨[], []⟩ {} 1 "t" 0 true false = (⟨[], []⟩, false) :=
  ⟨(sqlite_ingest_fault_atomicity ⟨[], []⟩ {} 1 "t" 0 false false).2.1 rfl,
   (sqlite_ingest_fault_atomicity ⟨[], []⟩ {} 1 "t" 0 true false).1 rfl⟩

end Saweria
